import Mathlib

/-!
Shallow embedding of the translation service in
`translation_machine_v2.py` (plus the routing file `api.py`), together
with theorems settling the behavioural claims about it.

Strings are modelled as lists of characters (`Str`); Python's
`str.replace(old, new)` is modelled by `replaceAll`, a left-to-right
non-overlapping replacement (the source only ever calls `replace` with
the non-empty lexicon entries, so the empty-pattern corner of Python's
`replace` is irrelevant and `replaceAll` returns its input there).
The opaque external collaborators — the two Hugging Face translation
pipelines and the NLTK tokenizer/metric functions — are parameters
(`pipeFr`, `pipeEn`, `NLP`), exactly as the spec treats them (opaque
functions: text in, text out).
-/

/-- Strings of the model: lists of characters. -/
abbrev Str : Type := List Char

/-- Shorthand converting a Lean string literal to the model's strings. -/
def sl (s : String) : Str := s.toList

/-- Fuel-indexed worker for `replaceAll`.  With fuel at least the length
of the subject string it performs Python's `str.replace`: scan left to
right, and at each position either consume a (non-overlapping) match of
`pat`, emitting `repl`, or keep the current character. -/
def replAux : Nat → Str → Str → Str → Str
  | 0, _, _, s => s
  | Nat.succ fuel, pat, repl, s =>
    match s with
    | [] => []
    | c :: rest =>
      if pat.isPrefixOf (c :: rest) then
        repl ++ replAux fuel pat repl ((c :: rest).drop pat.length)
      else
        c :: replAux fuel pat repl rest

/-- Model of Python's `text.replace(pat, repl)` for non-empty `pat`
(every pattern the source passes is a non-empty lexicon entry). -/
def replaceAll (pat repl s : Str) : Str :=
  if pat = [] then s else replAux s.length pat repl s

/-- `text.lower()`. -/
def lowerStr (s : Str) : Str := s.map Char.toLower

/-- `text.strip()`: drop leading and trailing whitespace. -/
def strip (s : Str) : Str :=
  ((s.dropWhile Char.isWhitespace).reverse.dropWhile Char.isWhitespace).reverse

/-- The dictionary `med_abbr_en_to_fr` of `translation_machine_v2.py`,
in its (insertion-order preserving) iteration order. -/
def med_abbr_en_to_fr : List (Str × Str) :=
  [ (sl "BP", sl "TA"),
    (sl "HR", sl "FC"),
    (sl "ECG", sl "ECG"),
    (sl "CT scan", sl "Tomodensitogrammes"),
    (sl "CPR", sl "RCR"),
    (sl "DVT", sl "TVP"),
    (sl "GERD", sl "RGO"),
    (sl "TKA", sl "PTG"),
    (sl "MRI", sl "IRM"),
    (sl "IV", sl "IV"),
    (sl "CBC", sl "NFS"),
    (sl "WBC", sl "GB"),
    (sl "RBC", sl "GR"),
    (sl "UTI", sl "ITU"),
    (sl "COPD", sl "BPCO"),
    (sl "CHF", sl "IC") ]

/-- Insertion into a Python dict modelled as an association list:
an existing key is overwritten in place, a new key is appended. -/
def dictInsert (d : List (Str × Str)) (k v : Str) : List (Str × Str) :=
  if d.any (fun p => p.1 == k) then
    d.map (fun p => if p.1 = k then (k, v) else p)
  else d ++ [(k, v)]

/-- `med_abbr_fr_to_en = {v: k for k, v in med_abbr_en_to_fr.items()}`. -/
def med_abbr_fr_to_en : List (Str × Str) :=
  med_abbr_en_to_fr.foldl (fun d p => dictInsert d p.2 p.1) []

/-- `preprocess_text(text, direction)`: pick `med_abbr_en_to_fr` when
`direction == 'en_to_fr'` and `med_abbr_fr_to_en` otherwise, then
`for abbr, full_form in abbr_dict.items(): text = text.replace(abbr, full_form)`
— each pair replaces the key by the value, sequentially. -/
def preprocess_text (text : Str) (direction : Str) : Str :=
  (if direction = sl "en_to_fr" then med_abbr_en_to_fr else med_abbr_fr_to_en).foldl
    (fun t pr => replaceAll pr.1 pr.2 t) text

/-- `postprocess_text(text, direction)`: same dictionary selection; the
loop is `for full_form, abbr in abbr_dict.items(): text = text.replace(full_form, abbr)`,
where `full_form` is bound to the dict KEY and `abbr` to the VALUE, so
each pair again replaces the key by the value. -/
def postprocess_text (text : Str) (direction : Str) : Str :=
  (if direction = sl "en_to_fr" then med_abbr_en_to_fr else med_abbr_fr_to_en).foldl
    (fun t pr => replaceAll pr.1 pr.2 t) text

/-- The opaque NLTK collaborators: `nltk.word_tokenize`,
`meteor_score.meteor_score` and `sentence_bleu`, consumed as opaque
functions exactly as the spec prescribes. -/
structure NLP where
  word_tokenize : Str → List Str
  meteor_score : List (List Str) → List Str → ℚ
  sentence_bleu : List (List Str) → List Str → ℚ

/-- `tokenize(text) = nltk.word_tokenize(text.lower())`. -/
def tokenize (nlp : NLP) (text : Str) : List Str :=
  nlp.word_tokenize (lowerStr text)

/-- `metrics(predicted, reference)`: tokenize both; if either token list
is empty return `(None, None)`, else the METEOR and BLEU scores. -/
def metrics (nlp : NLP) (predicted reference : Str) : Option ℚ × Option ℚ :=
  if tokenize nlp reference = [] ∨ tokenize nlp predicted = [] then (none, none)
  else
    (some (nlp.meteor_score [tokenize nlp reference] (tokenize nlp predicted)),
     some (nlp.sentence_bleu [tokenize nlp reference] (tokenize nlp predicted)))

/-- `"Translation error: " + str(e)`. -/
def tlerrMsg (e : Str) : Str := sl "Translation error: " ++ e

/-- The value bound to a response's text field: either a translated
string, or — through the bug in `translate_french_to_english` — the
error dict `{"Result": False, "Message": m}` embedded as the value. -/
inductive TextVal where
  | str : Str → TextVal
  | errDict : Str → TextVal
deriving DecidableEq

/-- Which key carries the translation in a success payload. -/
inductive RespField where
  | french_text : RespField
  | english_text : RespField
deriving DecidableEq

/-- An HTTP response of the handler: a 200 success payload
`{field: value, "meteor_score": m, "bleu_score": b}`, or an error
payload `{"Result": False, "Message": msg}` with its status code. -/
inductive Resp where
  | ok : RespField → TextVal → Option ℚ → Option ℚ → Resp
  | err : Nat → Str → Resp
deriving DecidableEq

/-- The parsed request arguments; absent optional fields default to the
empty string, as with `reqparse`'s `default=''`. -/
structure Request where
  translate_to : Str
  english_text : Str
  french_text : Str
  ground_truth_english : Str
  ground_truth_french : Str

/-- An apostrophe character, built from its code point. -/
def apos : Char := Char.ofNat 39

/-- The message of the `AttributeError` Python raises when `metrics`
receives the error dict returned by `translate_french_to_english`
(calling `.lower()` on a dict). -/
def dict_lower_err : Str :=
  [apos] ++ sl "dict" ++ [apos] ++ sl " object has no attribute " ++
    [apos] ++ sl "lower" ++ [apos]

/-- `translate_french_to_english(french_text)`: preprocess, invoke the
opaque fr→en pipeline, strip and postprocess on success; on any
exception, catch it and RETURN the error dict (it is not re-raised). -/
def translate_french_to_english (pipeEn : Str → Except Str Str) (french_text : Str) : TextVal :=
  match pipeEn (preprocess_text french_text (sl "fr_to_en")) with
  | Except.ok r => TextVal.str (postprocess_text (strip r) (sl "fr_to_en"))
  | Except.error e => TextVal.errDict (tlerrMsg e)

/-- `MachineTranslation.post`, parameterized by the two opaque
translation pipelines (`translation_pipes['french']` and
`translation_pipes['english']`, each returning a translation or raising
an exception carrying a message) and the opaque NLTK functions. -/
def MachineTranslation_post (pipeFr pipeEn : Str → Except Str Str) (nlp : NLP)
    (args : Request) : Resp :=
  if lowerStr args.translate_to = sl "french" ∨ lowerStr args.translate_to = sl "fr" then
    if args.english_text = [] then Resp.err 400 (sl "English text is required")
    else
      match pipeFr (preprocess_text args.english_text (sl "en_to_fr")) with
      | Except.error e => Resp.err 500 (tlerrMsg e)
      | Except.ok r =>
        if preprocess_text args.ground_truth_french (sl "en_to_fr") ≠ [] then
          Resp.ok RespField.french_text
            (TextVal.str (postprocess_text (strip r) (sl "en_to_fr")))
            (metrics nlp (postprocess_text (strip r) (sl "en_to_fr"))
              (preprocess_text args.ground_truth_french (sl "en_to_fr"))).1
            (metrics nlp (postprocess_text (strip r) (sl "en_to_fr"))
              (preprocess_text args.ground_truth_french (sl "en_to_fr"))).2
        else
          Resp.ok RespField.french_text
            (TextVal.str (postprocess_text (strip r) (sl "en_to_fr"))) none none
  else if lowerStr args.translate_to = sl "english" ∨ lowerStr args.translate_to = sl "en" then
    if args.french_text = [] then Resp.err 400 (sl "French text is required")
    else
      if preprocess_text args.ground_truth_english (sl "fr_to_en") ≠ [] then
        match translate_french_to_english pipeEn args.french_text with
        | TextVal.str s =>
          Resp.ok RespField.english_text (TextVal.str s)
            (metrics nlp s (preprocess_text args.ground_truth_english (sl "fr_to_en"))).1
            (metrics nlp s (preprocess_text args.ground_truth_english (sl "fr_to_en"))).2
        | TextVal.errDict _ => Resp.err 500 (tlerrMsg dict_lower_err)
      else
        Resp.ok RespField.english_text (translate_french_to_english pipeEn args.french_text)
          none none
  else Resp.err 400 (sl "Invalid language specified")

/-- A concrete instantiation of the opaque NLTK collaborators, used by
witnesses: one token per non-empty string, constant-zero scores. -/
def nlp0 : NLP :=
  ⟨fun s => if s = [] then [] else [s], fun _ _ => 0, fun _ _ => 0⟩

/-- A concrete pipeline that always succeeds with output `"out"`. -/
def pipeOkOut : Str → Except Str Str := fun _ => Except.ok (sl "out")

/-- A concrete pipeline that always raises with message `"boom"`. -/
def pipeBoom : Str → Except Str Str := fun _ => Except.error (sl "boom")

/-! ### Helper lemmas about `replaceAll` and the substitution folds -/

theorem replAux_nil (fuel : Nat) (pat repl : Str) : replAux fuel pat repl [] = [] := by
  cases fuel <;> rfl

theorem replaceAll_nil (pat repl : Str) : replaceAll pat repl [] = [] := by
  unfold replaceAll
  split <;> rfl

theorem replAux_ne_nil (fuel : Nat) (pat repl s : Str) (hr : repl ≠ []) (hs : s ≠ []) :
    replAux fuel pat repl s ≠ [] := by
  cases fuel with
  | zero => exact hs
  | succ n =>
    cases s with
    | nil => exact absurd rfl hs
    | cons c rest =>
      simp only [replAux]
      split
      · intro h
        exact hr (List.append_eq_nil.mp h).1
      · exact List.cons_ne_nil _ _

theorem replaceAll_ne_nil (pat repl s : Str) (hr : repl ≠ []) (hs : s ≠ []) :
    replaceAll pat repl s ≠ [] := by
  unfold replaceAll
  split
  · exact hs
  · exact replAux_ne_nil _ _ _ _ hr hs

theorem foldl_replace_nil (l : List (Str × Str)) :
    l.foldl (fun t pr => replaceAll pr.1 pr.2 t) [] = [] := by
  induction l with
  | nil => rfl
  | cons p l ih =>
    rw [List.foldl_cons, replaceAll_nil]
    exact ih

theorem foldl_replace_ne_nil (l : List (Str × Str)) :
    ∀ t : Str, (∀ p ∈ l, p.2 ≠ []) → t ≠ [] →
      l.foldl (fun t pr => replaceAll pr.1 pr.2 t) t ≠ [] := by
  induction l with
  | nil => intro t _ ht; exact ht
  | cons p l ih =>
    intro t hl ht
    rw [List.foldl_cons]
    exact ih _ (fun q hq => hl q (List.mem_cons_of_mem _ hq))
      (replaceAll_ne_nil _ _ _ (hl p (List.mem_cons_self _ _)) ht)

theorem preprocess_text_nil (d : Str) : preprocess_text [] d = [] := by
  unfold preprocess_text
  split <;> exact foldl_replace_nil _

theorem preprocess_ne_nil (t d : Str) (ht : t ≠ []) : preprocess_text t d ≠ [] := by
  unfold preprocess_text
  split
  · exact foldl_replace_ne_nil _ _ (by decide) ht
  · exact foldl_replace_ne_nil _ _ (by decide) ht

theorem replAux_congr (pat repl : Str) (hp : pat ≠ []) :
    ∀ (f1 : Nat) (s : Str) (f2 : Nat), s.length ≤ f1 → s.length ≤ f2 →
      replAux f1 pat repl s = replAux f2 pat repl s := by
  intro f1
  induction f1 with
  | zero =>
    intro s f2 h1 _
    have hs : s = [] := List.eq_nil_of_length_eq_zero (Nat.le_zero.mp h1)
    rw [hs, replAux_nil, replAux_nil]
  | succ n ih =>
    intro s f2 h1 h2
    cases s with
    | nil => rw [replAux_nil, replAux_nil]
    | cons c rest =>
      cases f2 with
      | zero => exact absurd h2 (by simp)
      | succ m =>
        have hplen : 1 ≤ pat.length := List.length_pos.mpr hp
        simp only [replAux]
        by_cases hpre : pat.isPrefixOf (c :: rest)
        · rw [if_pos hpre, if_pos hpre]
          have hd : ((c :: rest).drop pat.length).length ≤ rest.length := by
            rw [List.length_drop]
            simp only [List.length_cons]
            omega
          have hn : rest.length ≤ n := Nat.le_of_succ_le_succ (by simpa using h1)
          have hm : rest.length ≤ m := Nat.le_of_succ_le_succ (by simpa using h2)
          rw [ih _ m (le_trans hd hn) (le_trans hd hm)]
        · rw [if_neg hpre, if_neg hpre]
          have hn : rest.length ≤ n := Nat.le_of_succ_le_succ (by simpa using h1)
          have hm : rest.length ≤ m := Nat.le_of_succ_le_succ (by simpa using h2)
          rw [ih _ m hn hm]

theorem isPrefixOf_append_self (l s : Str) : l.isPrefixOf (l ++ s) = true :=
  List.isPrefixOf_iff_prefix.mpr (List.prefix_append _ _)

theorem replaceAll_append (pat repl s : Str) (hp : pat ≠ []) :
    replaceAll pat repl (pat ++ s) = repl ++ replaceAll pat repl s := by
  obtain ⟨p, ps, rfl⟩ : ∃ p ps, pat = p :: ps := by
    cases pat with
    | nil => exact absurd rfl hp
    | cons p ps => exact ⟨p, ps, rfl⟩
  unfold replaceAll
  rw [if_neg hp, if_neg hp]
  have hlen : ((p :: ps) ++ s).length = (ps.length + s.length) + 1 := by
    simp [Nat.add_comm, Nat.add_left_comm]
  rw [hlen]
  show (if (p :: ps).isPrefixOf ((p :: ps) ++ s) then
      repl ++ replAux (ps.length + s.length) (p :: ps) repl (((p :: ps) ++ s).drop (p :: ps).length)
    else _) = _
  rw [if_pos (isPrefixOf_append_self _ _), List.drop_left]
  congr 1
  exact replAux_congr _ _ hp _ _ _ (by simp) (le_refl _)

/-! ### Claim theorems -/

/-- C1: the round-trip law `restore(protect(text, d), d) == text` FAILS on the
code: `postprocess_text` repeats the abbreviation→expansion substitution of
`preprocess_text` instead of inverting it, so at direction `en_to_fr` and text
`"HR"` the round trip returns the protected form `"FC"`, not `"HR"` — even
though `"HR"`/`"FC"` overlap no other lexicon entry. -/
theorem C1_round_trip_fails :
    postprocess_text (preprocess_text (sl "HR") (sl "en_to_fr")) (sl "en_to_fr") = sl "FC" ∧
    sl "FC" ≠ sl "HR" := by
  decide

/-- C2: `postprocess_text` does NOT replace expansions by abbreviations: at
direction `en_to_fr` it leaves `"TA"` unchanged (the claim says it becomes
`"BP"`), and maps `"BPCO"` to `"TACO"` (replacing the abbreviation `BP` by its
expansion `TA`, exactly as `preprocess_text` would) rather than to `"COPD"`. -/
theorem C2_restore_not_inverse :
    postprocess_text (sl "TA") (sl "en_to_fr") = sl "TA" ∧
    postprocess_text (sl "BPCO") (sl "en_to_fr") = sl "TACO" ∧
    sl "TACO" ≠ sl "COPD" := by
  decide

/-- C3: for every text and direction, `postprocess_text` returns exactly the
same string as `preprocess_text` — the loop in `postprocess_text` unpacks the
dict items as `(full_form, abbr)`, i.e. key and value swapped in name only, so
it performs the identical key→value substitution. -/
theorem C3_postprocess_eq_preprocess (text direction : Str) :
    postprocess_text text direction = preprocess_text text direction := rfl

/-- C4: in the fr→en direction a model error is NOT surfaced as HTTP 500:
`translate_french_to_english` catches the exception and returns the error dict,
which the handler (with an empty `ground_truth_english`) embeds as the
`english_text` value of a 200 success payload. -/
theorem C4_fr_to_en_error_not_500 :
    MachineTranslation_post pipeOkOut pipeBoom nlp0
        ⟨sl "english", [], sl "Bonjour", [], []⟩ =
      Resp.ok RespField.english_text (TextVal.errDict (tlerrMsg (sl "boom"))) none none := by
  decide

/-- C5: validation — an unsupported target language yields a 400
"Invalid language specified"; target French with empty `english_text` yields a
400 "English text is required"; target English with empty `french_text` yields
a 400 "French text is required"; in each case the response is the same for
every translation pipeline, so no translation is attempted. -/
theorem C5_validation (pipeFr pipeEn : Str → Except Str Str) (nlp : NLP) (args : Request) :
    (¬ (lowerStr args.translate_to = sl "french" ∨ lowerStr args.translate_to = sl "fr") →
     ¬ (lowerStr args.translate_to = sl "english" ∨ lowerStr args.translate_to = sl "en") →
      MachineTranslation_post pipeFr pipeEn nlp args =
        Resp.err 400 (sl "Invalid language specified")) ∧
    ((lowerStr args.translate_to = sl "french" ∨ lowerStr args.translate_to = sl "fr") →
      args.english_text = [] →
      MachineTranslation_post pipeFr pipeEn nlp args =
        Resp.err 400 (sl "English text is required")) ∧
    ((lowerStr args.translate_to = sl "english" ∨ lowerStr args.translate_to = sl "en") →
      args.french_text = [] →
      MachineTranslation_post pipeFr pipeEn nlp args =
        Resp.err 400 (sl "French text is required")) := by
  refine ⟨fun h1 h2 => ?_, fun h1 h2 => ?_, fun h1 h2 => ?_⟩
  · unfold MachineTranslation_post
    rw [if_neg h1, if_neg h2]
  · unfold MachineTranslation_post
    rw [if_pos h1, if_pos h2]
  · have h0 : ¬ (lowerStr args.translate_to = sl "french" ∨
        lowerStr args.translate_to = sl "fr") := by
      rcases h1 with h | h <;> rw [h] <;> decide
    unfold MachineTranslation_post
    rw [if_neg h0, if_pos h1, if_pos h2]

/-- C5 witness: the three validation rejections at concrete requests
(`spanish` is invalid; `French` — case-insensitively French — with empty
English text; `english` with empty French text). -/
theorem C5_validation_witness :
    MachineTranslation_post pipeOkOut pipeBoom nlp0 ⟨sl "spanish", [], [], [], []⟩ =
      Resp.err 400 (sl "Invalid language specified") ∧
    MachineTranslation_post pipeOkOut pipeBoom nlp0 ⟨sl "French", [], [], [], []⟩ =
      Resp.err 400 (sl "English text is required") ∧
    MachineTranslation_post pipeOkOut pipeBoom nlp0 ⟨sl "english", [], [], [], []⟩ =
      Resp.err 400 (sl "French text is required") :=
  ⟨(C5_validation pipeOkOut pipeBoom nlp0 _).1 (by decide) (by decide),
   (C5_validation pipeOkOut pipeBoom nlp0 _).2.1 (by decide) rfl,
   (C5_validation pipeOkOut pipeBoom nlp0 _).2.2 (by decide) rfl⟩

/-- C6: degenerate scoring — whenever either side tokenizes to the empty token
list, `metrics` returns `(none, none)`; in particular, as soon as the opaque
word tokenizer maps `""` to no tokens (as NLTK's does), `metrics "" r` and
`metrics c ""` are `(none, none)`. -/
theorem C6_degenerate_metrics (nlp : NLP) (c r : Str) :
    ((tokenize nlp c = [] ∨ tokenize nlp r = []) → metrics nlp c r = (none, none)) ∧
    (nlp.word_tokenize [] = [] →
      metrics nlp [] r = (none, none) ∧ metrics nlp c [] = (none, none)) := by
  constructor
  · intro h
    unfold metrics
    rcases h with h | h
    · rw [if_pos (Or.inr h)]
    · rw [if_pos (Or.inl h)]
  · intro h0
    have hnil : tokenize nlp [] = [] := by
      unfold tokenize lowerStr
      simpa using h0
    constructor
    · unfold metrics
      rw [if_pos (Or.inr hnil)]
    · unfold metrics
      rw [if_pos (Or.inl hnil)]

/-- C6 witness: with a concrete tokenizer sending `""` to no tokens, both
degenerate calls return `(none, none)`. -/
theorem C6_degenerate_metrics_witness :
    metrics nlp0 (sl "hi") [] = (none, none) ∧
    metrics nlp0 [] (sl "ref") = (none, none) :=
  ⟨(C6_degenerate_metrics nlp0 (sl "hi") []).1 (Or.inr (by decide)),
   ((C6_degenerate_metrics nlp0 (sl "hi") (sl "ref")).2 (by decide)).1⟩

/-- C7: when the target-language ground-truth field of the request is the empty
string, every 200 success response carries `meteor_score` and `bleu_score` as
null — the scoring branch is never taken (for any pipelines and any NLTK
functions). -/
theorem C7_no_reference_no_scores (pipeFr pipeEn : Str → Except Str Str) (nlp : NLP)
    (args : Request) :
    ((lowerStr args.translate_to = sl "french" ∨ lowerStr args.translate_to = sl "fr") →
      args.ground_truth_french = [] →
      ∀ f v m b, MachineTranslation_post pipeFr pipeEn nlp args = Resp.ok f v m b →
        m = none ∧ b = none) ∧
    ((lowerStr args.translate_to = sl "english" ∨ lowerStr args.translate_to = sl "en") →
      args.ground_truth_english = [] →
      ∀ f v m b, MachineTranslation_post pipeFr pipeEn nlp args = Resp.ok f v m b →
        m = none ∧ b = none) := by
  constructor
  · intro h1 hgt f v m b heq
    unfold MachineTranslation_post at heq
    rw [if_pos h1] at heq
    by_cases he : args.english_text = []
    · rw [if_pos he] at heq
      exact Resp.noConfusion heq
    · rw [if_neg he] at heq
      split at heq
      · exact Resp.noConfusion heq
      · rw [hgt, preprocess_text_nil] at heq
        rw [if_neg (by simp)] at heq
        injection heq with hf hv hm hb
        exact ⟨hm.symm, hb.symm⟩
  · intro h1 hgt f v m b heq
    have h0 : ¬ (lowerStr args.translate_to = sl "french" ∨
        lowerStr args.translate_to = sl "fr") := by
      rcases h1 with h | h <;> rw [h] <;> decide
    unfold MachineTranslation_post at heq
    rw [if_neg h0, if_pos h1] at heq
    by_cases hf : args.french_text = []
    · rw [if_pos hf] at heq
      exact Resp.noConfusion heq
    · rw [if_neg hf] at heq
      rw [hgt, preprocess_text_nil] at heq
      rw [if_neg (by simp)] at heq
      injection heq with hf' hv hm hb
      exact ⟨hm.symm, hb.symm⟩

/-- C7 witness: a concrete successful request with no reference yields a 200
payload whose two scores are null. -/
theorem C7_no_reference_no_scores_witness :
    MachineTranslation_post pipeOkOut pipeBoom nlp0 ⟨sl "french", sl "hi", [], [], []⟩ =
      Resp.ok RespField.french_text (TextVal.str (sl "out")) none none ∧
    ((none : Option ℚ) = none ∧ (none : Option ℚ) = none) :=
  ⟨by decide,
   (C7_no_reference_no_scores pipeOkOut pipeBoom nlp0
       ⟨sl "french", sl "hi", [], [], []⟩).1 (by decide) rfl
     RespField.french_text (TextVal.str (sl "out")) none none (by decide)⟩

/-- C8: reference asymmetry — on every success response carrying a translated
string, the scores equal `metrics` applied to that (restored) translated text
as candidate and to `preprocess_text` (protect) of the raw ground-truth field,
with the input's direction, as reference; the reference is never passed
through `postprocess_text`. -/
theorem C8_reference_protected (pipeFr pipeEn : Str → Except Str Str) (nlp : NLP)
    (args : Request) :
    ((lowerStr args.translate_to = sl "french" ∨ lowerStr args.translate_to = sl "fr") →
      args.ground_truth_french ≠ [] →
      ∀ f s m b, MachineTranslation_post pipeFr pipeEn nlp args = Resp.ok f (TextVal.str s) m b →
        (m, b) = metrics nlp s (preprocess_text args.ground_truth_french (sl "en_to_fr"))) ∧
    ((lowerStr args.translate_to = sl "english" ∨ lowerStr args.translate_to = sl "en") →
      args.ground_truth_english ≠ [] →
      ∀ f s m b, MachineTranslation_post pipeFr pipeEn nlp args = Resp.ok f (TextVal.str s) m b →
        (m, b) = metrics nlp s (preprocess_text args.ground_truth_english (sl "fr_to_en"))) := by
  constructor
  · intro h1 hgt f s m b heq
    unfold MachineTranslation_post at heq
    rw [if_pos h1] at heq
    by_cases he : args.english_text = []
    · rw [if_pos he] at heq
      exact Resp.noConfusion heq
    · rw [if_neg he] at heq
      split at heq
      · exact Resp.noConfusion heq
      · rename_i r
        rw [if_pos (preprocess_ne_nil _ _ hgt)] at heq
        simp only [Resp.ok.injEq, TextVal.str.injEq] at heq
        obtain ⟨hf, hs, hm, hb⟩ := heq
        subst hs
        rw [← hm, ← hb]
  · intro h1 hgt f s m b heq
    have h0 : ¬ (lowerStr args.translate_to = sl "french" ∨
        lowerStr args.translate_to = sl "fr") := by
      rcases h1 with h | h <;> rw [h] <;> decide
    unfold MachineTranslation_post at heq
    rw [if_neg h0, if_pos h1] at heq
    by_cases hf : args.french_text = []
    · rw [if_pos hf] at heq
      exact Resp.noConfusion heq
    · rw [if_neg hf] at heq
      rw [if_pos (preprocess_ne_nil _ _ hgt)] at heq
      split at heq
      · rename_i s' hs'
        simp only [Resp.ok.injEq, TextVal.str.injEq] at heq
        obtain ⟨hf', hs, hm, hb⟩ := heq
        subst hs
        rw [← hm, ← hb]
      · exact Resp.noConfusion heq

/-- C8 witness: with reference `"BP"` in direction en→fr, the returned scores
are exactly `metrics` of the translated text against the protected (not
restored) reference `preprocess_text "BP" "en_to_fr"` (which is `"TA"`). -/
theorem C8_reference_protected_witness :
    ((some 0 : Option ℚ), (some 0 : Option ℚ)) =
      metrics nlp0 (sl "out") (preprocess_text (sl "BP") (sl "en_to_fr")) :=
  (C8_reference_protected pipeOkOut pipeBoom nlp0
      ⟨sl "french", sl "hi", [], [], sl "BP"⟩).1 (by decide) (by decide)
    RespField.french_text (sl "out") (some 0) (some 0) (by decide)

/-- C9: `preprocess_text` maps the empty text to the empty text for every
direction; it is the naive sequential fold of single replacements over
`med_abbr_en_to_fr` when the direction is `"en_to_fr"` and over the inverted
`med_abbr_fr_to_en` for every other direction; and each single replacement
substitutes at every literal occurrence of the pattern, left to right. -/
theorem C9_protect_spec :
    (∀ d : Str, preprocess_text [] d = []) ∧
    (∀ t : Str, preprocess_text t (sl "en_to_fr") =
      med_abbr_en_to_fr.foldl (fun text pr => replaceAll pr.1 pr.2 text) t) ∧
    (∀ (t d : Str), d ≠ sl "en_to_fr" → preprocess_text t d =
      med_abbr_fr_to_en.foldl (fun text pr => replaceAll pr.1 pr.2 text) t) ∧
    (∀ (pat repl s : Str), pat ≠ [] →
      replaceAll pat repl (pat ++ s) = repl ++ replaceAll pat repl s) := by
  refine ⟨preprocess_text_nil, fun t => ?_, fun t d hd => ?_,
    fun pat repl s hp => replaceAll_append pat repl s hp⟩
  · unfold preprocess_text
    rw [if_pos rfl]
  · unfold preprocess_text
    rw [if_neg hd]

/-- C9 witness: the inverted-mapping branch at direction `"fr_to_en"` and the
occurrence-replacing law at the pair `("BP", "TA")`. -/
theorem C9_protect_spec_witness :
    preprocess_text (sl "TA") (sl "fr_to_en") =
      med_abbr_fr_to_en.foldl (fun text pr => replaceAll pr.1 pr.2 text) (sl "TA") ∧
    replaceAll (sl "BP") (sl "TA") (sl "BP" ++ sl "!") =
      sl "TA" ++ replaceAll (sl "BP") (sl "TA") (sl "!") :=
  ⟨C9_protect_spec.2.2.1 (sl "TA") (sl "fr_to_en") (by decide),
   C9_protect_spec.2.2.2 (sl "BP") (sl "TA") (sl "!") (by decide)⟩

/-- C10: the fr→en mapping, built by Python's inverting dict comprehension, is
the exact key/value swap of the 16-entry en→fr mapping (no entry lost), and
both mappings are bijections: keys pairwise distinct and values pairwise
distinct in each direction. -/
theorem C10_lexicon_bijection :
    med_abbr_fr_to_en = med_abbr_en_to_fr.map (fun p => (p.2, p.1)) ∧
    med_abbr_en_to_fr.length = 16 ∧ med_abbr_fr_to_en.length = 16 ∧
    (med_abbr_en_to_fr.map Prod.fst).Nodup ∧
    (med_abbr_en_to_fr.map Prod.snd).Nodup ∧
    (med_abbr_fr_to_en.map Prod.fst).Nodup ∧
    (med_abbr_fr_to_en.map Prod.snd).Nodup := by
  decide
